import Mathlib

/-!
Verification of the modelbase generic repository layer.

The embedding translates the Go sources:
- consts.go: the Sort and Lock enumerations and their ToString methods.
- interface.go: the query-option protocol (pageOpt / sortOpt / whereOpt,
  their Apply and IsCountOpt methods, and the PageOpt/SortOpt/WhereOpt
  constructors).
- the unnamed implementation file (modelBase methods Insert, Get,
  GetWithLock, GetBy, Exist, List, ListMap, ListByIDs, ListMapByIDs,
  Count) and modelbase.go (the Upsert variant with the duplicate-entry
  fallback).

The external query executor (gorm) is out of scope of the repository and
is modelled by its contract: a query-builder state accumulated by the
builder methods the source calls (Where, Offset, Limit, Order, Clauses,
First, Find, Count), executed against an in-memory table, a list of rows.
SQL predicate strings with positional arguments are denoted by boolean
predicates on rows.  The row type is the concrete DBObject of the
repository test suite (integer primary key, two plain columns); the Go
zero value of the row is modelled as the all-zero row.
-/

namespace Modelbase

/-- The concrete row type of the test suite: integer primary key plus two
columns. -/
structure DBObject where
  ID : Int
  Name : String
  Age : Int
deriving DecidableEq, Repr

/-- The row-contract primary-key accessor (GetID in the source). -/
def DBObject.GetID (t : DBObject) : Int := t.ID

/-- The zero value of the row type, returned by the point lookups when the
row is missing. -/
def DBObject.zero : DBObject := { ID := 0, Name := "", Age := 0 }

/-- Errors reported by the executor: the distinguished record-not-found
condition (gorm.ErrRecordNotFound) and any other failure carrying its
message text. -/
inductive DBError where
  | recordNotFound
  | other (msg : String)
deriving DecidableEq, Repr

/-- consts.go: ASC Sort = iota (Sort is a Go uint8, modelled as Nat). -/
def ASC : Nat := 0

/-- consts.go: DESC Sort. -/
def DESC : Nat := 1

/-- consts.go: NoLock Lock = iota (Lock is a Go uint8, modelled as Nat). -/
def NoLock : Nat := 0

/-- consts.go: IS Lock (shared). -/
def IS : Nat := 1

/-- consts.go: IX Lock (exclusive). -/
def IX : Nat := 2

/-- consts.go Lock.ToString: IS maps to SHARE, IX to UPDATE, every other
value (NoLock included) to the empty string. -/
def lockToString (l : Nat) : String :=
  if l = IS then "SHARE" else if l = IX then "UPDATE" else ""

/-- consts.go Sort.ToString: ASC and DESC map to their SQL keywords; every
other value hits the panic at the end of the switch, modelled as none. -/
def sortToString (s : Nat) : Option String :=
  if s = ASC then some "ASC" else if s = DESC then some "DESC" else none

/-- The query-builder state accumulated before execution.  Filters are the
denotations of the Where clauses (conjoined), orders the ORDER BY terms
(field name, descending flag), offset/limit the pagination window (none
when never set), lockStrength the strength string of the locking clause
(the empty string when no locking clause is issued, per the executor
contract), byId the primary-key condition of a First(&t, id) lookup. -/
structure GormDB where
  filters : List (DBObject → Bool)
  orders : List (String × Bool)
  offset : Option Int
  limit : Option Int
  lockStrength : String
  byId : Option Int

/-- The fresh per-call builder obtained from the stored handle
(m.db.WithContext(ctx)). -/
def GormDB.fresh : GormDB :=
  { filters := [], orders := [], offset := none, limit := none,
    lockStrength := "", byId := none }

/-- Builder method Where(pred, values...): conjoins one filter. -/
def GormDB.whereP (b : GormDB) (p : DBObject → Bool) : GormDB :=
  { b with filters := b.filters ++ [p] }

/-- Builder method Offset(o). -/
def GormDB.offsetQ (b : GormDB) (o : Int) : GormDB :=
  { b with offset := some o }

/-- Builder method Limit(l). -/
def GormDB.limitQ (b : GormDB) (l : Int) : GormDB :=
  { b with limit := some l }

/-- Builder method Order(OrderByColumn) with a descending flag: appends
one ORDER BY term. -/
def GormDB.orderQ (b : GormDB) (f : String) (desc : Bool) : GormDB :=
  { b with orders := b.orders ++ [(f, desc)] }

/-- Builder method Clauses(clause.Locking with the given strength). -/
def GormDB.clausesLocking (b : GormDB) (strength : String) : GormDB :=
  { b with lockStrength := strength }

/-- A row satisfies the accumulated conditions of the builder. -/
def matchesRow (b : GormDB) (r : DBObject) : Bool :=
  b.filters.all (fun p => p r) &&
    (match b.byId with
     | none => true
     | some i => r.ID == i)

/-- interface.go: the three query-option variants.  pageOpt carries the
already-computed offset and limit, sortOpt a field name and direction,
whereOpt the denotation of its predicate string plus arguments. -/
inductive ListOpt where
  | page (offset : Int) (limit : Int)
  | sortO (sortField : String) (sortDir : Nat)
  | whereO (pred : DBObject → Bool)

/-- interface.go Apply methods: pageOpt does db.Offset(offset).Limit(limit),
sortOpt does db.Order with Desc set iff the direction equals DESC, whereOpt
does db.Where(where, values...). -/
def ListOpt.Apply : ListOpt → GormDB → GormDB
  | .page o l, b => (b.offsetQ o).limitQ l
  | .sortO f s, b => b.orderQ f (s == DESC)
  | .whereO p, b => b.whereP p

/-- interface.go IsCountOpt methods: false for pageOpt and sortOpt, true
for whereOpt. -/
def ListOpt.IsCountOpt : ListOpt → Bool
  | .page _ _ => false
  | .sortO _ _ => false
  | .whereO _ => true

/-- Reduction of an integer into the 64-bit signed (Go int)
two-complement range, the value Go arithmetic stores on overflow. -/
def wrap64 (x : Int) : Int :=
  (x + 2 ^ 63) % 2 ^ 64 - 2 ^ 63

/-- interface.go PageOpt: offset = (pageNo - 1) * pageSize, limit =
pageSize, computed in Go int (64-bit wrapping) arithmetic.  Go wraps the
subtraction and the multiplication separately; since wrapping is
reduction modulo 2 to the 64, wrapping once after the whole product
stores the same value. -/
def PageOpt (pageNo : Int) (pageSize : Int) : ListOpt :=
  ListOpt.page (wrap64 ((pageNo - 1) * pageSize)) pageSize

/-- interface.go SortOpt. -/
def SortOpt (sortField : String) (sortDir : Nat) : ListOpt :=
  ListOpt.sortO sortField sortDir

/-- interface.go WhereOpt, with the predicate string and arguments denoted
by a boolean predicate on rows. -/
def WhereOpt (pred : DBObject → Bool) : ListOpt :=
  ListOpt.whereO pred

/-- Executor calls issued to the database, recorded so that theorems can
speak about which statements an operation issues. -/
inductive DBCall where
  | createOne (t : DBObject)
  | createMany (ts : List DBObject)
  | updatesRow (t : DBObject)
deriving DecidableEq, Repr

/-- Insert from the unnamed implementation file: an empty argument list
returns nil at once; otherwise one Create(ts) executor call is issued,
whose outcome (an error message or none) is supplied by the executor
environment createErr.  The second component records the executor calls
issued. -/
def Insert (createErr : List DBObject → Option String) (ts : List DBObject) :
    Option String × List DBCall :=
  if ts.length = 0 then (none, [])
  else (createErr ts, [DBCall.createMany ts])

/-- pat is a leading segment of the first character list. -/
def leadMatch : List Char → List Char → Bool
  | _, [] => true
  | [], _ :: _ => false
  | a :: as, b :: bs => a == b && leadMatch as bs

/-- pat occurs as a contiguous segment of the character list. -/
def occursIn : List Char → List Char → Bool
  | [], pat => leadMatch [] pat
  | a :: rest, pat => leadMatch (a :: rest) pat || occursIn rest pat

/-- Go strings.Contains(s, pat): pat occurs as a substring of s. -/
def goContains (s pat : String) : Bool :=
  occursIn s.data pat.data

/-- Upsert from modelbase.go: issue Create(t); when it fails and the error
text contains the substring Duplicate entry, issue Updates(t) and return
its outcome; otherwise return the insert error.  createErr and updatesErr
supply the executor outcomes of the two possible calls; the second
component records the calls issued. -/
def Upsert (createErr : DBObject → Option String)
    (updatesErr : DBObject → Option String) (t : DBObject) :
    Option String × List DBCall :=
  match createErr t with
  | none => (none, [DBCall.createOne t])
  | some msg =>
    if goContains msg "Duplicate entry" then
      (updatesErr t, [DBCall.createOne t, DBCall.updatesRow t])
    else
      (some msg, [DBCall.createOne t])

/-- Executor First: the first row of the table satisfying the
conditions of the builder, or the record-not-found error when none does. -/
def execFirst (b : GormDB) (rows : List DBObject) : Except DBError DBObject :=
  match rows.filter (matchesRow b) with
  | [] => Except.error DBError.recordNotFound
  | r :: _ => Except.ok r

/-- The result-and-error normalization block the implementation file
repeats verbatim inside Get, GetWithLock, GetBy and GetWithLockBy: run
First on the prepared builder; on success return the populated row with a
nil error; a record-not-found error returns a freshly zeroed row with a
nil error; any other error returns the zeroed row with the error. -/
def firstReturn (b : GormDB) (rows : List DBObject) :
    DBObject × Option DBError :=
  match execFirst b rows with
  | Except.ok t => (t, none)
  | Except.error e =>
    if e = DBError.recordNotFound then (DBObject.zero, none)
    else (DBObject.zero, some e)

/-- Get from the unnamed implementation file: First(&t, id) on a fresh
builder, with the shared normalization block.  The second component is
the issued query-builder state. -/
def Get (id : Int) (rows : List DBObject) :
    (DBObject × Option DBError) × GormDB :=
  (firstReturn { GormDB.fresh with byId := some id } rows,
   { GormDB.fresh with byId := some id })

/-- GetWithLock from the unnamed implementation file: identical to Get
except that the builder first receives Clauses(Locking with strength
lock.ToString()). -/
def GetWithLock (lock : Nat) (id : Int) (rows : List DBObject) :
    (DBObject × Option DBError) × GormDB :=
  (firstReturn
     { GormDB.fresh.clausesLocking (lockToString lock) with byId := some id }
     rows,
   { GormDB.fresh.clausesLocking (lockToString lock) with byId := some id })

/-- GetBy from the unnamed implementation file: Where(where, values...)
then First, with the shared normalization block. -/
def GetBy (p : DBObject → Bool) (rows : List DBObject) :
    DBObject × Option DBError :=
  firstReturn (GormDB.fresh.whereP p) rows

/-- Exist from the unnamed implementation file: call GetBy with the same
predicate; a record-not-found error becomes (false, nil), any other error
(false, err), and a nil error becomes (true, nil). -/
def Exist (p : DBObject → Bool) (rows : List DBObject) :
    Bool × Option DBError :=
  match (GetBy p rows).2 with
  | some e =>
    if e = DBError.recordNotFound then (false, none) else (false, some e)
  | none => (true, none)

/-- Comparison of two rows on one named column (the ORDER BY of the executor
on a column of the test row type). -/
def cmpField (f : String) (a b : DBObject) : Ordering :=
  if f = "id" then compare a.ID b.ID
  else if f = "name" then compare a.Name b.Name
  else if f = "age" then compare a.Age b.Age
  else Ordering.eq

/-- Lexicographic comparison along the accumulated ORDER BY terms, each
with its descending flag. -/
def cmpOrders : List (String × Bool) → DBObject → DBObject → Ordering
  | [], _, _ => Ordering.eq
  | (f, desc) :: rest, a, b =>
    match (if desc then cmpField f b a else cmpField f a b) with
    | Ordering.eq => cmpOrders rest a b
    | o => o

/-- Insertion step of the sort performed by the executor. -/
def insertBy (le : DBObject → DBObject → Bool) (x : DBObject) :
    List DBObject → List DBObject
  | [] => [x]
  | y :: ys => if le x y then x :: y :: ys else y :: insertBy le x ys

/-- The executor sorts the matching rows by the ORDER BY terms. -/
def sortRows (orders : List (String × Bool)) (rows : List DBObject) :
    List DBObject :=
  rows.foldr (insertBy (fun a b => cmpOrders orders a b != Ordering.gt)) []

/-- The executor applies the pagination window: OFFSET drops leading
result rows, LIMIT keeps a leading segment (a negative limit, the
cancel value of gorm, keeps everything). -/
def window (b : GormDB) (rows : List α) : List α :=
  let afterOffset :=
    match b.offset with
    | some o => rows.drop o.toNat
    | none => rows
  match b.limit with
  | some l => if l < 0 then afterOffset else afterOffset.take l.toNat
  | none => afterOffset

/-- Executor Find: filter, sort, then window. -/
def execFind (b : GormDB) (rows : List DBObject) : List DBObject :=
  window b (sortRows b.orders (rows.filter (matchesRow b)))

/-- Executor Count: the aggregate count of the rows matching the filters;
the pagination window of the builder applies to the single aggregate
result row (so a non-trivial window corrupts the count to 0). -/
def execCount (b : GormDB) (rows : List DBObject) : Int :=
  (window b [((rows.filter (matchesRow b)).length : Int)]).headD 0

/-- The loop of List in the implementation file: every supplied option is
applied to the builder in call order. -/
def applyAll (opts : List ListOpt) (b : GormDB) : GormDB :=
  opts.foldl (fun acc o => o.Apply acc) b

/-- The loop of Count in the implementation file: an option whose
IsCountOpt is false is skipped (continue); the rest are applied in call
order. -/
def applyCountEligible (opts : List ListOpt) (b : GormDB) : GormDB :=
  opts.foldl (fun acc o => if o.IsCountOpt then o.Apply acc else acc) b

/-- List from the unnamed implementation file: apply all options to a
fresh builder, then Find.  The pure executor never fails here, so the
error component is nil. -/
def ListRows (opts : List ListOpt) (rows : List DBObject) :
    List DBObject × Option DBError :=
  (execFind (applyAll opts GormDB.fresh) rows, none)

/-- Count from the unnamed implementation file: apply only the
count-eligible options to a fresh builder, then Count. -/
def Count (opts : List ListOpt) (rows : List DBObject) :
    Int × Option DBError :=
  (execCount (applyCountEligible opts GormDB.fresh) rows, none)

/-- One insertion into the Go map indexed by primary key: an existing
binding of the key is overwritten, otherwise the binding is added. -/
def mapInsert : List (Int × DBObject) → Int → DBObject →
    List (Int × DBObject)
  | [], k, t => [(k, t)]
  | (j, u) :: rest, k, t =>
    if j == k then (k, t) :: rest else (j, u) :: mapInsert rest k t

/-- Go map access m[k]. -/
def lookupGo (k : Int) : List (Int × DBObject) → Option DBObject
  | [] => none
  | (j, u) :: rest => if j == k then some u else lookupGo k rest

/-- The indexing loop shared by ListMap and ListMapByIDs: fill a fresh
map with each returned row under its GetID. -/
def buildMap (ts : List DBObject) : List (Int × DBObject) :=
  ts.foldl (fun m t => mapInsert m t.GetID t) []

/-- ListMap from the unnamed implementation file: run List with the same
options; on error return a nil map with the error, otherwise index the
returned rows by primary key (the map is non-nil even when empty). -/
def ListMap (opts : List ListOpt) (rows : List DBObject) :
    Option (List (Int × DBObject)) × Option DBError :=
  match ListRows opts rows with
  | (_, some e) => (none, some e)
  | (ts, none) => (some (buildMap ts), none)

/-- ListByIDs from the unnamed implementation file: Find with the IN
predicate on the primary-key column, denoted as membership of the
ID of the row in the given list. -/
def ListByIDs (ids : List Int) (rows : List DBObject) :
    List DBObject × Option DBError :=
  (rows.filter (fun r => ids.contains r.ID), none)

/-- ListMapByIDs from the unnamed implementation file: run ListByIDs; on
error return a nil map with the error; when zero rows come back return a
nil map and a nil error; otherwise index the rows by primary key. -/
def ListMapByIDs (ids : List Int) (rows : List DBObject) :
    Option (List (Int × DBObject)) × Option DBError :=
  match ListByIDs ids rows with
  | (_, some e) => (none, some e)
  | (ts, none) =>
    if ts.length = 0 then (none, none) else (some (buildMap ts), none)

end Modelbase

namespace Modelbase

theorem applyCountEligible_cons (o : ListOpt) (os : List ListOpt)
    (b : GormDB) :
    applyCountEligible (o :: os) b =
      applyCountEligible os (if o.IsCountOpt then o.Apply b else b) := rfl

theorem applyCountEligible_filter (opts : List ListOpt) :
    ∀ b : GormDB,
      applyCountEligible opts b =
        applyCountEligible (opts.filter ListOpt.IsCountOpt) b := by
  induction opts with
  | nil => intro b; rfl
  | cons o os ih =>
    intro b
    cases h : o.IsCountOpt with
    | false => simp [applyCountEligible_cons, List.filter_cons, h, ih]
    | true => simp [applyCountEligible_cons, List.filter_cons, h, ih]

theorem mapInsert_lookup (m : List (Int × DBObject)) (k : Int)
    (t : DBObject) (q : Int) :
    lookupGo q (mapInsert m k t) =
      if k == q then some t else lookupGo q m := by
  induction m with
  | nil =>
    by_cases h : k = q <;> simp [mapInsert, lookupGo, h]
  | cons p rest ih =>
    obtain ⟨j, u⟩ := p
    by_cases hj : j = k
    · subst hj
      by_cases hq : j = q <;> simp [mapInsert, lookupGo, hq]
    · by_cases hq : j = q
      · subst hq
        have hk : ¬k = j := fun h => hj h.symm
        simp [mapInsert, lookupGo, hj, hk]
      · simp [mapInsert, lookupGo, hj, hq, ih]

theorem mapInsert_keys_mem (m : List (Int × DBObject)) (k : Int)
    (t : DBObject) (q : Int) :
    q ∈ (mapInsert m k t).map Prod.fst ↔
      q = k ∨ q ∈ m.map Prod.fst := by
  induction m with
  | nil => simp [mapInsert]
  | cons p rest ih =>
    obtain ⟨j, u⟩ := p
    by_cases hj : j = k
    · subst hj
      simp [mapInsert, List.mem_cons]
    · simp [mapInsert, hj, List.mem_cons, ih]
      tauto

theorem mapInsert_keys_nodup (m : List (Int × DBObject)) (k : Int)
    (t : DBObject) (h : (m.map Prod.fst).Nodup) :
    ((mapInsert m k t).map Prod.fst).Nodup := by
  induction m with
  | nil => simp [mapInsert]
  | cons p rest ih =>
    obtain ⟨j, u⟩ := p
    simp only [List.map_cons, List.nodup_cons] at h
    by_cases hj : j = k
    · subst hj
      simpa [mapInsert] using h
    · have h2 := ih h.2
      have hmem : ¬j ∈ (mapInsert rest k t).map Prod.fst := by
        rw [mapInsert_keys_mem]
        rintro (rfl | hm)
        · exact hj rfl
        · exact h.1 hm
      simp [mapInsert, hj, List.nodup_cons, hmem, h2]

theorem buildMap_from_lookup (ts : List DBObject) :
    ∀ (m : List (Int × DBObject)) (k : Int),
      lookupGo k (ts.foldl (fun m t => mapInsert m t.GetID t) m) =
        match ts.reverse.find? (fun t => t.GetID == k) with
        | some u => some u
        | none => lookupGo k m := by
  induction ts with
  | nil => intro m k; rfl
  | cons t ts ih =>
    intro m k
    rw [List.foldl_cons, ih]
    rw [List.reverse_cons, List.find?_append]
    cases h : ts.reverse.find? (fun t => t.GetID == k) with
    | some u => simp [Option.or]
    | none =>
      cases hp : (t.GetID == k) with
      | true => simp [Option.or, hp, mapInsert_lookup]
      | false => simp [Option.or, hp, mapInsert_lookup]

theorem buildMap_from_keys_mem (ts : List DBObject) :
    ∀ (m : List (Int × DBObject)) (k : Int),
      k ∈ ((ts.foldl (fun m t => mapInsert m t.GetID t) m).map Prod.fst) ↔
        k ∈ ts.map DBObject.GetID ∨ k ∈ m.map Prod.fst := by
  induction ts with
  | nil => intro m k; simp
  | cons t ts ih =>
    intro m k
    rw [List.foldl_cons, ih, mapInsert_keys_mem]
    simp [or_comm, or_assoc, or_left_comm]

theorem buildMap_from_keys_nodup (ts : List DBObject) :
    ∀ m : List (Int × DBObject), (m.map Prod.fst).Nodup →
      ((ts.foldl (fun m t => mapInsert m t.GetID t) m).map Prod.fst).Nodup := by
  induction ts with
  | nil => intro m h; exact h
  | cons t ts ih =>
    intro m h
    rw [List.foldl_cons]
    exact ih _ (mapInsert_keys_nodup m t.GetID t h)

/-- Claim C10 theorem: Sort.ToString returns ASC for the ascending value
and DESC for the descending value, and panics (modelled as none) for every
other Sort value. -/
theorem sortToString_values :
    sortToString ASC = some "ASC" ∧ sortToString DESC = some "DESC" ∧
    ∀ s : Nat, s ≠ ASC → s ≠ DESC → sortToString s = none := by
  refine ⟨rfl, rfl, ?_⟩
  intro s h0 h1
  simp [sortToString, h0, h1]

/-- Claim C10 witness: the Sort value 2 is neither ASC nor DESC and
Sort.ToString panics on it. -/
theorem sortToString_values_witness : sortToString 2 = none :=
  sortToString_values.2.2 2 (by decide) (by decide)

theorem wrap64_eq_of_range (x : Int) (h1 : -(2 ^ 63) ≤ x)
    (h2 : x < 2 ^ 63) : wrap64 x = x := by
  have hsum : (2 : Int) ^ 64 = 2 ^ 63 + 2 ^ 63 := by norm_num
  unfold wrap64
  rw [Int.emod_eq_of_lt (by linarith) (by linarith)]
  ring

/-- Claim C6 counterexample: at pageNo = pageSize = 2 to the 40 — both
representable Go ints — the page option stores the 64-bit wrapped
product, the negative of 2 to the 40, not the mathematical
(pageNo - 1) * pageSize, which exceeds the Go int range. -/
theorem pageOpt_overflow_counterexample :
    ((PageOpt (2 ^ 40) (2 ^ 40)).Apply GormDB.fresh).offset =
      some (-(2 ^ 40)) ∧
    (-(2 ^ 40) : Int) ≠ (2 ^ 40 - 1) * 2 ^ 40 := by
  constructor
  · decide
  · decide

/-- Claim C6 theorem (amended): the page option built from a page number
and a page size applies limit pageSize and offset equal to
(pageNo - 1) * pageSize computed in wrapping 64-bit Go int arithmetic;
whenever that product lies in the 64-bit signed range the stored offset
is exactly (pageNo - 1) * pageSize. -/
theorem pageOpt_apply_offset_limit (p s : Int) (b : GormDB) :
    (PageOpt p s).Apply b =
      { b with offset := some (wrap64 ((p - 1) * s)), limit := some s } ∧
    (-(2 ^ 63) ≤ (p - 1) * s → (p - 1) * s < 2 ^ 63 →
      wrap64 ((p - 1) * s) = (p - 1) * s) := by
  exact ⟨rfl, fun h1 h2 => wrap64_eq_of_range ((p - 1) * s) h1 h2⟩

/-- Claim C6 witness: page 2 with size 10 stores offset 10 = (2 - 1) * 10
and limit 10; the product is in the 64-bit range, so the wrapped offset
is the exact product. -/
theorem pageOpt_apply_offset_limit_witness :
    (PageOpt 2 10).Apply GormDB.fresh = { GormDB.fresh with offset := some (wrap64 ((2 - 1) * 10)), limit := some 10 } ∧
    wrap64 ((2 - 1) * 10) = (2 - 1) * 10 :=
  ⟨(pageOpt_apply_offset_limit 2 10 GormDB.fresh).1,
   (pageOpt_apply_offset_limit 2 10 GormDB.fresh).2 (by decide) (by decide)⟩

/-- Claim C7 theorem: Insert with zero rows returns success without
issuing any executor call, whatever outcomes the executor would have
produced. -/
theorem insert_empty_no_executor_call
    (createErr : List DBObject → Option String) :
    Insert createErr [] = (none, []) := by
  rfl

/-- Claim C3 theorem: the counting operation applies only the
count-eligible options — filter options are count-eligible, page and sort
options are not — so Count over a mixed option list returns the same
numeric result as Count over the list with only the filter options
retained. -/
theorem count_ignores_non_count_opts (opts : List ListOpt)
    (rows : List DBObject) :
    Count opts rows = Count (opts.filter ListOpt.IsCountOpt) rows ∧
    (∀ o l, (ListOpt.page o l).IsCountOpt = false) ∧
    (∀ f s, (ListOpt.sortO f s).IsCountOpt = false) ∧
    (∀ p, (ListOpt.whereO p).IsCountOpt = true) := by
  refine ⟨?_, fun _ _ => rfl, fun _ _ => rfl, fun _ => rfl⟩
  unfold Count
  rw [applyCountEligible_filter opts GormDB.fresh]

/-- Claim C8 theorem: the mapping built by the indexing loop of ListMap
and ListMapByIDs has pairwise distinct keys, its key set is exactly the
set of primary keys of the returned rows, and each key is bound to the
last returned row carrying it (later rows overwrite earlier entries);
ListMap indexes exactly the rows List returns, and ListMapByIDs indexes
exactly the rows the IN lookup returns (nil when none). -/
theorem listMap_key_semantics :
    (∀ ts : List DBObject,
      ((buildMap ts).map Prod.fst).Nodup ∧
      (∀ k, k ∈ (buildMap ts).map Prod.fst ↔ k ∈ ts.map DBObject.GetID) ∧
      (∀ k, lookupGo k (buildMap ts) =
        ts.reverse.find? (fun t => t.GetID == k))) ∧
    (∀ (opts : List ListOpt) (rows : List DBObject),
      (ListMap opts rows).1 = some (buildMap (ListRows opts rows).1)) ∧
    (∀ (ids : List Int) (rows : List DBObject),
      (ListMapByIDs ids rows).1 =
        if (ListByIDs ids rows).1.length = 0 then none
        else some (buildMap (ListByIDs ids rows).1)) := by
  refine ⟨fun ts => ⟨?_, fun k => ?_, fun k => ?_⟩,
    fun opts rows => rfl, fun ids rows => ?_⟩
  · exact buildMap_from_keys_nodup ts [] (by simp)
  · have h := buildMap_from_keys_mem ts [] k
    simpa [buildMap] using h
  · have h := buildMap_from_lookup ts [] k
    unfold buildMap
    rw [h]
    cases ts.reverse.find? (fun t => t.GetID == k) <;> simp [lookupGo]
  · simp only [ListMapByIDs, ListByIDs]
    rw [apply_ite Prod.fst]

/-- Claim C9 theorem: when the given id list matches no row, ListMapByIDs
returns the nil mapping (not a non-nil empty one) and a nil error. -/
theorem listMapByIDs_no_match_nil (ids : List Int) (rows : List DBObject)
    (h : rows.filter (fun r => ids.contains r.ID) = []) :
    ListMapByIDs ids rows = (none, none) := by
  simp only [ListMapByIDs, ListByIDs, h, List.length_nil]
  rfl

/-- Claim C9 witness: id 5 matches no row of a one-row table and
ListMapByIDs returns the nil mapping with a nil error. -/
theorem listMapByIDs_no_match_nil_witness :
    ListMapByIDs [5] [{ ID := 1, Name := "x", Age := 0 }] = (none, none) :=
  listMapByIDs_no_match_nil [5] [{ ID := 1, Name := "x", Age := 0 }]
    (by rfl)

/-- Claim C1 evidence theorem (against the claim): on an empty table no
row matches the always-true predicate, GetBy returns the zero row with a
nil error, and Exist therefore returns (true, nil) — not the claimed
(false, nil) — because GetBy already absorbed the record-not-found error
and the not-found branch inside Exist is unreachable. -/
theorem exist_true_when_no_row_matches :
    GetBy (fun _ => true) [] = (DBObject.zero, none) ∧
    Exist (fun _ => true) [] = (true, none) :=
  ⟨rfl, rfl⟩

/-- Claim C2 theorem: when no row of the table carries the requested
primary key, Get returns the zero-valued row and no error, and — Get
being a pure function of the key and the table — a repeated call returns
the identical result. -/
theorem get_missing_key_zero_no_error (id : Int) (rows : List DBObject)
    (h : rows.filter (fun r => r.ID == id) = []) :
    Get id rows =
      ((DBObject.zero, none), { GormDB.fresh with byId := some id }) ∧
    Get id rows = Get id rows := by
  refine ⟨?_, rfl⟩
  have hfun : matchesRow { GormDB.fresh with byId := some id } =
      fun r => r.ID == id := by
    funext r
    simp [matchesRow, GormDB.fresh]
  simp [Get, firstReturn, execFirst, hfun, h]

/-- Claim C2 witness: key 7 matches no row of a one-row table and Get
returns the zero row, no error. -/
theorem get_missing_key_zero_no_error_witness :
    Get 7 [{ ID := 1, Name := "a", Age := 2 }] =
      ((DBObject.zero, none), { GormDB.fresh with byId := some 7 }) :=
  (get_missing_key_zero_no_error 7 [{ ID := 1, Name := "a", Age := 2 }]
    (by rfl)).1

/-- Claim C5 theorem: GetWithLock with the NoLock mode issues the same
query as Get (no locking clause: the strength is empty) and returns the
identical result; the IS (shared) mode issues the SHARE strength and the
IX (exclusive) mode the UPDATE strength on the issued query. -/
theorem getWithLock_modes (id : Int) (rows : List DBObject) :
    GetWithLock NoLock id rows = Get id rows ∧
    (GetWithLock IS id rows).2.lockStrength = "SHARE" ∧
    (GetWithLock IX id rows).2.lockStrength = "UPDATE" :=
  ⟨rfl, rfl, rfl⟩

/-- Claim C4 theorem: Upsert (modelbase.go variant) always issues the
insert first; when the insert succeeds no further call is made; when the
insert error text contains the Duplicate entry signature (substring
matching, no typed classification) Upsert falls back to Updates on the
same row and returns that outcome; otherwise the insert error itself is
returned with no fallback. -/
theorem upsert_insert_then_fallback
    (createErr updatesErr : DBObject → Option String) (t : DBObject) :
    (createErr t = none →
      Upsert createErr updatesErr t = (none, [DBCall.createOne t])) ∧
    (∀ msg, createErr t = some msg →
      goContains msg "Duplicate entry" = true →
      Upsert createErr updatesErr t =
        (updatesErr t, [DBCall.createOne t, DBCall.updatesRow t])) ∧
    (∀ msg, createErr t = some msg →
      goContains msg "Duplicate entry" = false →
      Upsert createErr updatesErr t = (some msg, [DBCall.createOne t])) := by
  refine ⟨?_, ?_, ?_⟩
  · intro h
    simp [Upsert, h]
  · intro msg hmsg hc
    simp [Upsert, hmsg, hc]
  · intro msg hmsg hc
    simp [Upsert, hmsg, hc]

/-- Claim C4 witness: an executor whose insert reports a duplicate-entry
error and whose update succeeds makes Upsert issue the insert then the
fallback update on the same row, returning the nil outcome of the update. -/
theorem upsert_insert_then_fallback_witness :
    Upsert (fun _ => some "Error 1062: Duplicate entry 5 for key name")
      (fun _ => none) DBObject.zero =
      (none, [DBCall.createOne DBObject.zero,
              DBCall.updatesRow DBObject.zero]) :=
  (upsert_insert_then_fallback
    (fun _ => some "Error 1062: Duplicate entry 5 for key name")
    (fun _ => none) DBObject.zero).2.1
    "Error 1062: Duplicate entry 5 for key name" rfl (by decide)

end Modelbase
